import Mathlib

/-!
Shallow embedding of the drift-clock token generator and its action-cadence
scheduler from `clock.py` (presence clock): the token table, SHA-256-based
index selection, the `DriftClock` state machine, the recent-bit history kept
by the cycle tick, the action-tick seed construction and domain choice, and
the key/mouse actuator dispatch wrappers.

Machine words are `Nat` reduced mod 2^32 where the code's arithmetic wraps;
Python floats (`drift`, probabilities, uniform draws) are modelled as `ℚ`,
with the random draws passed in explicitly as oracle arguments; Python
exceptions are modelled with `Except String`, the error value carrying the
exception class name.
-/

namespace PresenceClock

/-! ## SHA-256 over byte lists (`hashlib.sha256`), words as `Nat` mod 2^32 -/

/-- Reduce to a 32-bit word. -/
def w32 (n : Nat) : Nat := n % 4294967296

/-- Right rotation of a 32-bit word. -/
def rotr (n x : Nat) : Nat := w32 ((x >>> n) ||| (x <<< (32 - n)))

/-- SHA-256 `Ch` function. -/
def shaCh (x y z : Nat) : Nat := (x &&& y) ^^^ ((x ^^^ 4294967295) &&& z)

/-- SHA-256 `Maj` function. -/
def shaMaj (x y z : Nat) : Nat := (x &&& y) ^^^ (x &&& z) ^^^ (y &&& z)

/-- SHA-256 big sigma 0. -/
def bsig0 (x : Nat) : Nat := rotr 2 x ^^^ rotr 13 x ^^^ rotr 22 x

/-- SHA-256 big sigma 1. -/
def bsig1 (x : Nat) : Nat := rotr 6 x ^^^ rotr 11 x ^^^ rotr 25 x

/-- SHA-256 small sigma 0. -/
def ssig0 (x : Nat) : Nat := rotr 7 x ^^^ rotr 18 x ^^^ (x >>> 3)

/-- SHA-256 small sigma 1. -/
def ssig1 (x : Nat) : Nat := rotr 17 x ^^^ rotr 19 x ^^^ (x >>> 10)

/-- The 64 SHA-256 round constants (decimal). -/
def shaK : List Nat :=
  [1116352408, 1899447441, 3049323471, 3921009573, 961987163, 1508970993,
   2453635748, 2870763221, 3624381080, 310598401, 607225278, 1426881987,
   1925078388, 2162078206, 2614888103, 3248222580, 3835390401, 4022224774,
   264347078, 604807628, 770255983, 1249150122, 1555081692, 1996064986,
   2554220882, 2821834349, 2952996808, 3210313671, 3336571891, 3584528711,
   113926993, 338241895, 666307205, 773529912, 1294757372, 1396182291,
   1695183700, 1986661051, 2177026350, 2456956037, 2730485921, 2820302411,
   3259730800, 3345764771, 3516065817, 3600352804, 4094571909, 275423344,
   430227734, 506948616, 659060556, 883997877, 958139571, 1322822218,
   1537002063, 1747873779, 1955562222, 2024104815, 2227730452, 2361852424,
   2428436474, 2756734187, 3204031479, 3329325298]

/-- The eight SHA-256 working/state words. -/
structure Hash8 where
  a : Nat
  b : Nat
  c : Nat
  d : Nat
  e : Nat
  f : Nat
  g : Nat
  h : Nat
deriving Repr, DecidableEq

/-- The SHA-256 initial hash value (decimal). -/
def shaH0 : Hash8 :=
  ⟨1779033703, 3144134277, 1013904242, 2773480762,
   1359893119, 2600822924, 528734635, 1541459225⟩

/-- Group a byte list into 32-bit big-endian words. -/
def toWords : List Nat → List Nat
  | b0 :: b1 :: b2 :: b3 :: rest =>
      (((b0 * 256 + b1) * 256 + b2) * 256 + b3) :: toWords rest
  | _ => []

/-- Extend the 16-word message schedule by `n` further words. -/
def extendW : Nat → List Nat → List Nat
  | 0, ws => ws
  | n + 1, ws =>
      let m := ws.length
      extendW n (ws ++ [w32 (ssig1 (ws.getD (m - 2) 0) + ws.getD (m - 7) 0 +
                             ssig0 (ws.getD (m - 15) 0) + ws.getD (m - 16) 0)])

/-- One SHA-256 round, consuming one `(constant, schedule-word)` pair. -/
def compressStep (st : Hash8) (kw : Nat × Nat) : Hash8 :=
  let t1 := w32 (st.h + bsig1 st.e + shaCh st.e st.f st.g + kw.1 + kw.2)
  let t2 := w32 (bsig0 st.a + shaMaj st.a st.b st.c)
  ⟨w32 (t1 + t2), st.a, st.b, st.c, w32 (st.d + t1), st.e, st.f, st.g⟩

/-- Compress one 64-byte block into the running hash value. -/
def compressBlock (hv : Hash8) (block : List Nat) : Hash8 :=
  let ws := extendW 48 (toWords block)
  let st := (shaK.zip ws).foldl compressStep hv
  ⟨w32 (hv.a + st.a), w32 (hv.b + st.b), w32 (hv.c + st.c), w32 (hv.d + st.d),
   w32 (hv.e + st.e), w32 (hv.f + st.f), w32 (hv.g + st.g), w32 (hv.h + st.h)⟩

/-- The message bit length as 8 big-endian bytes. -/
def lenBytes (n : Nat) : List Nat :=
  [n / 2 ^ 56 % 256, n / 2 ^ 48 % 256, n / 2 ^ 40 % 256, n / 2 ^ 32 % 256,
   n / 2 ^ 24 % 256, n / 2 ^ 16 % 256, n / 2 ^ 8 % 256, n % 256]

/-- SHA-256 padding: `0x80`, zeros to 56 mod 64, then the 64-bit bit length. -/
def shaPad (msg : List Nat) : List Nat :=
  let L := msg.length
  msg ++ [128] ++ List.replicate ((64 - (L + 9) % 64) % 64) 0 ++ lenBytes (L * 8)

/-- Split a byte list into 64-byte chunks; the fuel argument bounds the
number of chunks and is passed as the list length. -/
def chunksAux : Nat → List Nat → List (List Nat)
  | 0, _ => []
  | _ + 1, [] => []
  | fuel + 1, x :: rest => (x :: rest).take 64 :: chunksAux fuel ((x :: rest).drop 64)

/-- Split a byte list into 64-byte chunks. -/
def chunks64 (l : List Nat) : List (List Nat) := chunksAux l.length l

/-- A 32-bit word as 4 big-endian bytes. -/
def wordBytes (w : Nat) : List Nat :=
  [w / 2 ^ 24 % 256, w / 2 ^ 16 % 256, w / 2 ^ 8 % 256, w % 256]

/-- SHA-256 of a byte list, returned as the 32 digest bytes. -/
def sha256 (msg : List Nat) : List Nat :=
  let hv := (chunks64 (shaPad msg)).foldl compressBlock shaH0
  wordBytes hv.a ++ wordBytes hv.b ++ wordBytes hv.c ++ wordBytes hv.d ++
  wordBytes hv.e ++ wordBytes hv.f ++ wordBytes hv.g ++ wordBytes hv.h

/-- `sha_index` from `clock.py`: hash the bit list one byte per bit and take
the low 6 bits of the digest's first byte. -/
def sha_index (bits : List Nat) : Nat := (sha256 bits).headD 0 &&& 63

/-! ## Token table (`make_token_table`, `TOKENS`) -/

/-- The `RESET` sentinel token. -/
def RESET_TOKEN : String := "§RESET§"

/-- The candidate symbols: uppercase, lowercase, digits, punctuation, one
single-character string per symbol (88 entries). -/
def tokenBaseChars : List String :=
  ("ABCDEFGHIJKLMNOPQRSTUVWXYZ").toList.map Char.toString ++
  ("abcdefghijklmnopqrstuvwxyz").toList.map Char.toString ++
  ("0123456789").toList.map Char.toString ++
  ("!@#$%^&*()-_=+[]\x7b\x7d;:,<.>/?").toList.map Char.toString

/-- The `while len(base) < 64: base += base` loop, with explicit fuel. -/
def growTokens : Nat → List String → List String
  | 0, l => l
  | n + 1, l => if l.length < 64 then growTokens n (l ++ l) else l

/-- The defensive `RESET` re-insertion: if the sentinel is absent, overwrite
slot 0 with it. -/
def fixReset (l : List String) : List String :=
  if RESET_TOKEN ∈ l then l else l.set 0 RESET_TOKEN

/-- The token table before the optional shuffle: grow the candidates to at
least 64, truncate to 64, force the `RESET` sentinel in. With
randomization disabled this is the final table. -/
def token_table_unshuffled : List String :=
  fixReset ((growTokens 64 tokenBaseChars).take 64)

/-- `make_token_table` with randomization enabled, as a function of the
shuffle outcome: `shuffled` is `r.shuffle` applied to the unshuffled table
(an arbitrary permutation of it), after which the sentinel is defensively
re-checked. -/
def make_token_table (shuffled : List String) : List String := fixReset shuffled

/-! ## DriftClock -/

/-- The oracle for the two random draws `emit` makes: `delta` is
`random.uniform(-drift_range, drift_range)` and `u` is `random.random()`. -/
structure EmitRand where
  delta : ℚ
  u : ℚ
deriving Repr, DecidableEq

/-- The `DriftClock` state. Python floats are modelled as `ℚ`. -/
structure DriftClock where
  bits : List Nat
  cycle_bits : Nat
  drift_range : ℚ
  reset_prob : ℚ
  drift : ℚ
  window_counter : Nat
deriving Repr, DecidableEq

/-- `DriftClock.__init__`. -/
def DriftClock.init (cycle_bits : Int) (drift_range reset_prob : ℚ) : DriftClock :=
  ⟨[], (max 1 cycle_bits).toNat, drift_range, reset_prob, 0, 0⟩

/-- `DriftClock.reset_params`. -/
def DriftClock.reset_params (c : DriftClock) (cycle_bits : Int)
    (drift_range reset_prob : ℚ) : DriftClock :=
  { c with cycle_bits := (max 1 cycle_bits).toNat, drift_range := drift_range,
           reset_prob := reset_prob }

/-- `DriftClock.add_bit`: append `1` for a truthy argument, `0` for a falsy
one (the argument is annotated `int` in the source; an `int` is truthy iff
nonzero). -/
def DriftClock.add_bit (c : DriftClock) (b : Int) : DriftClock :=
  { c with bits := c.bits ++ [if b ≠ 0 then 1 else 0] }

/-- `DriftClock.full`. -/
def DriftClock.full (c : DriftClock) : Bool := c.cycle_bits ≤ c.bits.length

/-- `DriftClock.emit`, with the token table and the two random draws passed
explicitly. Returns the token and the successor state. -/
def DriftClock.emit (c : DriftClock) (tokens : List String) (r : EmitRand) :
    String × DriftClock :=
  let out := c.bits.take c.cycle_bits
  let rest := c.bits.drop c.cycle_bits
  let idx := sha_index out
  let token := tokens.getD (idx % 64) ""
  let d := max (min (c.drift + r.delta) (c.drift_range * 8)) (-(c.drift_range * 8))
  (token,
   if token = RESET_TOKEN ∧ r.u < c.reset_prob then
     { c with bits := [], drift := 0, window_counter := c.window_counter + 1 }
   else
     { c with bits := rest, drift := d, window_counter := c.window_counter + 1 })

/-- One mutating operation on a `DriftClock` (`full` is read-only). -/
inductive ClockOp where
  | addBit (b : Int)
  | emitOp (tokens : List String) (r : EmitRand)
  | resetParamsOp (cycle_bits : Int) (drift_range reset_prob : ℚ)

/-- Apply one operation to the clock state. -/
def runOp (c : DriftClock) (op : ClockOp) : DriftClock :=
  match op with
  | ClockOp.addBit b => c.add_bit b
  | ClockOp.emitOp tokens r => (c.emit tokens r).2
  | ClockOp.resetParamsOp cb dr rp => c.reset_params cb dr rp

/-- Apply a sequence of operations to the clock state. -/
def runOps (c : DriftClock) (ops : List ClockOp) : DriftClock := ops.foldl runOp c

/-! ## Recent-bit history and the action tick (`MiniUI`) -/

/-- The fixed 8-bit salt appended to every scheduler hash input. -/
def SALT : List Nat := [1, 0, 1, 0, 0, 1, 0, 1]

/-- The `last_bits` update in `_on_cycle_tick`: append the new bit, then pop
the front element when the history exceeds 64 entries. -/
def push_bit (lb : List Nat) (b : Nat) : List Nat :=
  let l := lb ++ [b]
  if l.length > 64 then l.drop 1 else l

/-- The hash input built by `_on_action_tick`: the whole retained history
(or an all-ones/all-zeros default, by presence, when fewer than 8 bits are
retained), with the salt appended. -/
def action_seed (last_bits : List Nat) (active : Bool) : List Nat :=
  (if last_bits.length < 8 then
     (if active then List.replicate 8 1 else List.replicate 8 0)
   else last_bits) ++ SALT

/-- Modelled from the spec (§4.3 step 1), for comparison with `action_seed`:
the hash input as the spec words it, built from only the most recent
at-most-8 bits of the history. -/
def action_seed_spec (last_bits : List Nat) (active : Bool) : List Nat :=
  (if last_bits.length < 8 then
     (if active then List.replicate 8 1 else List.replicate 8 0)
   else last_bits.drop (last_bits.length - 8)) ++ SALT

/-- The three UI modes (`mode_index`). -/
inductive Mode where
  | mouse
  | keyboard
  | auto
deriving Repr, DecidableEq

/-- The two actuator domains. -/
inductive Domain where
  | mouse
  | keyboard
deriving Repr, DecidableEq

/-- The domain choice of `_on_action_tick`: forced by mode, else weighted by
the dominance values, with `u` the `random.uniform(0, m_dom + k_dom)`
draw. -/
def choose_domain (mode : Mode) (m_dom k_dom : Nat) (u : ℚ) : Domain :=
  match mode with
  | Mode.mouse => Domain.mouse
  | Mode.keyboard => Domain.keyboard
  | Mode.auto =>
      if m_dom = 0 ∧ k_dom = 0 then Domain.mouse
      else if m_dom = 0 then Domain.keyboard
      else if k_dom = 0 then Domain.mouse
      else if u < (m_dom : ℚ) then Domain.mouse else Domain.keyboard

/-- What one action tick derives before dispatch: the hash input it built,
the token displayed, and the acting domain. -/
structure ActionTickOut where
  seed : List Nat
  token : String
  domain : Domain
deriving Repr, DecidableEq

/-- The token-selection and domain-choice part of `_on_action_tick`. -/
def on_action_tick (tokens : List String) (last_bits : List Nat) (active : Bool)
    (mode : Mode) (m_dom k_dom : Nat) (u : ℚ) : ActionTickOut :=
  let seed := action_seed last_bits active
  { seed := seed
    token := tokens.getD (sha_index seed % 64) ""
    domain := choose_domain mode m_dom k_dom u }

/-! ## Actuator dispatch (`key_press`, mouse helpers, `_perform_*`)

Each wrapper takes an `outcome : Except String Unit` oracle standing for
the underlying OS input-injection call, whose error value carries the
raised exception's class name. -/

/-- The adminless-branch key-name mapping of `key_press` (`mapping.get`). -/
def KEY_NAME_MAP : List (String × String) :=
  [("page up", "pageup"), ("page down", "pagedown"), ("caps lock", "capslock"),
   ("left", "left"), ("right", "right"), ("up", "up"), ("down", "down"),
   ("ctrl", "ctrl"), ("alt", "alt"), ("shift", "shift"), ("enter", "enter"),
   ("backspace", "backspace"), ("tab", "tab"), ("home", "home"), ("end", "end"),
   ("insert", "insert"), ("delete", "delete"), ("space", "space"), ("esc", "esc")]

/-- `mapping.get(key, key)`. -/
def mapped_key (key : String) : String := (KEY_NAME_MAP.lookup key).getD key

/-- `key_press`: on any exception from the injection call, return the
`key-skip` tag built from the original key name; otherwise report the key
pressed (the mapped name on the adminless path, the raw name on the
elevated-keyboard path). -/
def key_press (key : String) (adminless kb_available : Bool)
    (outcome : Except String Unit) : String :=
  match outcome with
  | Except.error e => "key-skip:" ++ key ++ ":" ++ e
  | Except.ok _ =>
      if adminless || !kb_available then "key:" ++ mapped_key key
      else "key:" ++ key

/-- `mouse_move`: no exception handling; a raise propagates. -/
def mouse_move (dx dy : Int) (outcome : Except String Unit) : Except String String :=
  match outcome with
  | Except.error e => Except.error e
  | Except.ok _ => Except.ok ("move(" ++ toString dx ++ "," ++ toString dy ++ ")")

/-- `mouse_click`: no exception handling; a raise propagates. -/
def mouse_click (left dbl : Bool) (outcome : Except String Unit) : Except String String :=
  match outcome with
  | Except.error e => Except.error e
  | Except.ok _ =>
      if dbl && left then Except.ok ("dblclick")
      else if left then Except.ok ("click")
      else Except.ok ("rclick")

/-- `mouse_wheel`: no exception handling; a raise propagates. -/
def mouse_wheel (v h : Int) (outcome : Except String Unit) : Except String String :=
  match outcome with
  | Except.error e => Except.error e
  | Except.ok _ =>
      if v ≠ 0 then Except.ok ("scroll_v:" ++ toString v)
      else if h ≠ 0 then Except.ok ("scroll_h:" ++ toString h)
      else Except.ok ("wheel:noop")

/-- `mouse_drag`: no exception handling; a raise propagates. -/
def mouse_drag (start : Bool) (outcome : Except String Unit) : Except String String :=
  match outcome with
  | Except.error e => Except.error e
  | Except.ok _ => if start then Except.ok ("drag_start") else Except.ok ("drag_end")

/-- The direction table for pointer nudges. -/
def MOUSE_DIR : List (String × (Int × Int)) :=
  [("up", (0, -1)), ("down", (0, 1)), ("left", (-1, 0)), ("right", (1, 0)),
   ("up_left", (-1, -1)), ("up_right", (1, -1)), ("down_left", (-1, 1)),
   ("down_right", (1, 1)), ("upward", (0, -1))]

/-- The click-variant table. -/
def MOUSE_TOKENS_CLICKS : List (String × String) :=
  [("click", "L"), ("rclick", "R"), ("dblclick", "D")]

/-- The scroll-variant table. -/
def MOUSE_TOKENS_SCROLL : List (String × Int) :=
  [("scroll_up", 1), ("scroll_down", -1), ("scroll_left", -1), ("scroll_right", 1)]

/-- The drag-variant table. -/
def MOUSE_TOKENS_DRAG : List (String × String) :=
  [("drag_start", "S"), ("drag_end", "E")]

/-- The mouse settings read by `_perform_mouse`. -/
structure MouseCfg where
  step : Nat
  accel : Nat
  maxStep : Nat
deriving Repr, DecidableEq

/-- `_perform_mouse`: dispatch the pointer action and thread the
acceleration state `cur_step`; the underlying helpers propagate any raise,
so the result is an `Except`. -/
def perform_mouse (cfg : MouseCfg) (cur_step : Nat) (action_token : String)
    (outcome : Except String Unit) : Except String String × Nat :=
  match MOUSE_DIR.lookup action_token with
  | some (dx, dy) =>
      let s := min cfg.maxStep (max cfg.step (cur_step + cfg.accel))
      (mouse_move (dx * (s : Int)) (dy * (s : Int)) outcome, s)
  | none =>
      let s := cfg.step
      match MOUSE_TOKENS_CLICKS.lookup action_token with
      | some kind =>
          (if kind = "L" then mouse_click true false outcome
           else if kind = "R" then mouse_click false false outcome
           else mouse_click true true outcome, s)
      | none =>
          match MOUSE_TOKENS_SCROLL.lookup action_token with
          | some d =>
              (if action_token = "scroll_up" ∨ action_token = "scroll_down" then
                 mouse_wheel (d * 400) 0 outcome
               else mouse_wheel 0 (d * 400) outcome, s)
          | none =>
              match MOUSE_TOKENS_DRAG.lookup action_token with
              | some _ => (mouse_drag (action_token = "drag_start") outcome, s)
              | none => (Except.ok ("noop"), s)

/-- The names `_perform_key` routes through its identity `name_map`. -/
def KEY_NAME_SELF : List String :=
  ["space", "enter", "tab", "backspace", "left", "right", "up", "down",
   "ctrl", "alt", "shift", "esc"]

/-- Python's `str.isprintable` on the ASCII-plus-Latin-1 range used here. -/
def py_printable (c : Char) : Bool := 32 ≤ c.toNat && c.toNat ≠ 127

/-- `_perform_key`: route the action token through the identity name map,
else pass it through if a single printable character, else fall back to
`space`; every path ends in `key_press`, which catches. -/
def perform_key (adminless kb_available : Bool) (action_token : String)
    (outcome : Except String Unit) : String :=
  if action_token ∈ KEY_NAME_SELF then
    key_press action_token adminless kb_available outcome
  else if action_token.length = 1 ∧ action_token.toList.all py_printable then
    key_press action_token adminless kb_available outcome
  else
    key_press ("space") adminless kb_available outcome

/-! ## Helper lemmas -/

theorem sha_index_lt_64 (bs : List Nat) : sha_index bs < 64 :=
  Nat.lt_succ_of_le Nat.and_le_right

theorem emit_token_def (c : DriftClock) (tokens : List String) (r : EmitRand) :
    (c.emit tokens r).1 =
      tokens.getD (sha_index (c.bits.take c.cycle_bits) % 64) "" := rfl

theorem emit_state_def (c : DriftClock) (tokens : List String) (r : EmitRand) :
    (c.emit tokens r).2 =
      if (c.emit tokens r).1 = RESET_TOKEN ∧ r.u < c.reset_prob then
        { c with bits := [], drift := 0, window_counter := c.window_counter + 1 }
      else
        { c with bits := c.bits.drop c.cycle_bits,
                 drift := max (min (c.drift + r.delta) (c.drift_range * 8))
                              (-(c.drift_range * 8)),
                 window_counter := c.window_counter + 1 } := rfl

theorem push_bit_length_le (lb : List Nat) (b : Nat) (h : lb.length ≤ 64) :
    (push_bit lb b).length ≤ 64 := by
  unfold push_bit
  dsimp only
  by_cases hc : (lb ++ [b]).length > 64
  · rw [if_pos hc]
    simp
    omega
  · rw [if_neg hc]
    simp at hc ⊢
    omega

theorem foldl_push_bit (hs : List Nat) : ∀ lb : List Nat, lb.length ≤ 64 →
    List.foldl push_bit lb hs = (lb ++ hs).drop (lb.length + hs.length - 64) := by
  induction hs with
  | nil =>
      intro lb h
      simp only [List.foldl_nil, List.append_nil, List.length_nil, Nat.add_zero]
      rw [show lb.length - 64 = 0 by omega, List.drop_zero]
  | cons b bs ih =>
      intro lb h
      rw [List.foldl_cons]
      by_cases hlen : lb.length + 1 ≤ 64
      · have hpb : push_bit lb b = lb ++ [b] := by
          unfold push_bit
          dsimp only
          rw [if_neg]
          simp
          omega
        rw [hpb, ih (lb ++ [b]) (by simp; omega)]
        have hassoc : (lb ++ [b]) ++ bs = lb ++ b :: bs := by simp
        rw [hassoc]
        congr 1
        simp
        omega
      · have h64 : lb.length = 64 := by omega
        have hpb : push_bit lb b = (lb ++ [b]).drop 1 := by
          unfold push_bit
          dsimp only
          rw [if_pos]
          simp
          omega
        rw [hpb, ih _ (by simp [h64])]
        rw [← List.drop_append_of_le_length (by simp)]
        rw [List.drop_drop]
        have hassoc : (lb ++ [b]) ++ bs = lb ++ b :: bs := by simp
        rw [hassoc]
        congr 1
        simp [h64]
        omega

/-! ## Claim theorems -/

/-- C1: for a buffer that starts with a window `w` of exactly `cycle_bits`
bits, `emit()` returns the token at table index given by the low 6 bits of
the first byte of the SHA-256 digest of the window encoded one byte per
bit; and with no leftover bits, `full()` is false immediately afterwards. -/
theorem c1_emit_hash_token (tokens : List String) (c : DriftClock) (r : EmitRand)
    (w rest : List Nat) (hb : c.bits = w ++ rest) (hw : w.length = c.cycle_bits)
    (hpos : 0 < c.cycle_bits) :
    (c.emit tokens r).1 = tokens.getD ((sha256 w).headD 0 &&& 63) "" ∧
      (rest = [] → ((c.emit tokens r).2).full = false) := by
  have htake : c.bits.take c.cycle_bits = w := by
    rw [hb, ← hw, List.take_left]
  constructor
  · rw [emit_token_def, htake, Nat.mod_eq_of_lt (sha_index_lt_64 w)]
    rfl
  · intro hrest
    rw [emit_state_def]
    split
    · simp [DriftClock.full]
      omega
    · have hdrop : c.bits.drop c.cycle_bits = [] := by
        rw [hb, hrest, List.append_nil, ← hw, List.drop_length]
      simp [DriftClock.full, hdrop]
      omega

/-- C1 witness: the spec scenario with `cycle_bits = 8` and the window
`[1,0,1,1,0,0,1,0]`. -/
theorem c1_witness :
    ((⟨[1, 0, 1, 1, 0, 0, 1, 0], 8, 0, 0, 0, 0⟩ : DriftClock).emit
        token_table_unshuffled ⟨0, 0⟩).1 =
      token_table_unshuffled.getD ((sha256 [1, 0, 1, 1, 0, 0, 1, 0]).headD 0 &&& 63) "" ∧
      (([] : List Nat) = [] →
        (((⟨[1, 0, 1, 1, 0, 0, 1, 0], 8, 0, 0, 0, 0⟩ : DriftClock).emit
            token_table_unshuffled ⟨0, 0⟩).2).full = false) :=
  c1_emit_hash_token token_table_unshuffled _ _ [1, 0, 1, 1, 0, 0, 1, 0] []
    (by decide) (by decide) (by decide)

/-- C2 counterexample: with 9 bits of retained history the action tick hashes
all 9 of them plus the salt, not only the most recent 8 plus the salt, so
the tick's hash input differs from the claimed one. -/
theorem c2_counterexample :
    (on_action_tick [] [0, 1, 1, 1, 1, 1, 1, 1, 1] true Mode.auto 60 40 0).seed ≠
      action_seed_spec [0, 1, 1, 1, 1, 1, 1, 1, 1] true := by decide

/-- C2 amended: on an action tick the hash input is the entire retained
presence history — the most recent at-most-64 bits of the stream ingested so
far — (or the fixed all-ones/all-zeros default when fewer than 8 bits are
available), concatenated with the fixed 8-bit salt. -/
theorem c2_amended_seed (tokens : List String) (hs : List Nat) (active : Bool)
    (mode : Mode) (m k : Nat) (u : ℚ) :
    (on_action_tick tokens (List.foldl push_bit [] hs) active mode m k u).seed =
      (if hs.length < 8 then
         (if active then List.replicate 8 1 else List.replicate 8 0)
       else hs.drop (hs.length - 64)) ++ SALT := by
  have hfold : List.foldl push_bit [] hs = hs.drop (hs.length - 64) := by
    have h := foldl_push_bit hs [] (by simp)
    simpa using h
  show action_seed (List.foldl push_bit [] hs) active = _
  unfold action_seed
  rw [hfold]
  have hlen : (hs.drop (hs.length - 64)).length = hs.length - (hs.length - 64) :=
    List.length_drop _ _
  by_cases h8 : hs.length < 8
  · rw [if_pos (by omega), if_pos h8]
  · rw [if_neg (by omega), if_neg h8]

/-- C3 counterexample: a raise from the pointer actuator inside
`_perform_mouse` propagates out as the exception itself instead of being
converted into a skip tag. -/
theorem c3_counterexample :
    (perform_mouse ⟨24, 4, 96⟩ 24 ("up") (Except.error ("FailSafeException"))).1 =
      Except.error ("FailSafeException") := rfl

/-- C3 amended: only key-domain dispatch failures are caught: every key
action whose underlying injection raises yields a `key-skip:<key>:<exc>`
result tag (and, the return being a plain string, nothing propagates);
pointer-domain dispatch failures propagate out of the action tick. -/
theorem c3_key_skip (adminless kb_available : Bool) (action_token e : String) :
    ∃ k, perform_key adminless kb_available action_token (Except.error e) =
      "key-skip:" ++ k ++ ":" ++ e := by
  unfold perform_key
  split_ifs with h1 h2
  · exact ⟨action_token, rfl⟩
  · exact ⟨action_token, rfl⟩
  · exact ⟨"space", rfl⟩

/-- C4: after any `emit()`, the drift accumulator is clamped to
`|drift| ≤ 8 × drift_range` whenever `drift_range > 0`, whatever the prior
drift and the random perturbation. -/
theorem c4_drift_clamped (c : DriftClock) (tokens : List String) (r : EmitRand)
    (hr : 0 < c.drift_range) :
    |((c.emit tokens r).2).drift| ≤ 8 * c.drift_range := by
  rw [emit_state_def]
  split
  · dsimp only
    rw [abs_zero]
    linarith
  · dsimp only
    rw [abs_le]
    constructor
    · have h1 := le_max_right (min (c.drift + r.delta) (c.drift_range * 8))
        (-(c.drift_range * 8))
      linarith
    · have h2 : min (c.drift + r.delta) (c.drift_range * 8) ≤ c.drift_range * 8 :=
        min_le_right _ _
      have h3 : -(c.drift_range * 8) ≤ c.drift_range * 8 := by linarith
      have h4 := max_le h2 h3
      linarith

/-- C4 witness: a concrete emit with `drift_range = 1`. -/
theorem c4_witness :
    |(((DriftClock.init 8 1 0).emit token_table_unshuffled ⟨1, 0⟩).2).drift| ≤
      8 * (DriftClock.init 8 1 0).drift_range :=
  c4_drift_clamped _ _ _ (by norm_num [DriftClock.init])

/-- C5: if `emit()` selects the `RESET` token and the Bernoulli draw
succeeds (`u < reset_prob`; always when `reset_prob = 1` since
`random.random() < 1`), the successor state has an empty bit buffer and zero
drift. -/
theorem c5_reset_event (c : DriftClock) (tokens : List String) (r : EmitRand)
    (htok : (c.emit tokens r).1 = RESET_TOKEN) (hu : r.u < c.reset_prob) :
    ((c.emit tokens r).2).bits = [] ∧ ((c.emit tokens r).2).drift = 0 := by
  rw [emit_state_def, if_pos ⟨htok, hu⟩]
  exact ⟨rfl, rfl⟩

/-- C5 witness: the spec scenario: `reset_prob = 1`, one 8-bit window that
selects the `RESET` token, plus 5 leftover bits; both the leftovers and the
drift are wiped. -/
theorem c5_witness :
    (((⟨[1, 0, 1, 1, 0, 0, 1, 0, 1, 1, 1, 1, 1], 8, 0, 1, 0, 0⟩ : DriftClock).emit
        (List.replicate 64 RESET_TOKEN) ⟨0, 0⟩).2).bits = [] ∧
    (((⟨[1, 0, 1, 1, 0, 0, 1, 0, 1, 1, 1, 1, 1], 8, 0, 1, 0, 0⟩ : DriftClock).emit
        (List.replicate 64 RESET_TOKEN) ⟨0, 0⟩).2).drift = 0 :=
  c5_reset_event _ _ _ (by decide) (by decide)

/-- C6: when the buffer holds at least `cycle_bits` bits and no reset event
fires, `emit()` removes exactly the first `cycle_bits` entries, preserving
the remaining bits in order, the length drops by exactly `cycle_bits`, and
`full()` stays true only if at least another window's worth was queued. -/
theorem c6_emit_consumes_window (c : DriftClock) (tokens : List String) (r : EmitRand)
    (hfull : c.cycle_bits ≤ c.bits.length)
    (hnr : ¬((c.emit tokens r).1 = RESET_TOKEN ∧ r.u < c.reset_prob)) :
    ((c.emit tokens r).2).bits = c.bits.drop c.cycle_bits ∧
      ((c.emit tokens r).2).bits.length = c.bits.length - c.cycle_bits ∧
      (((c.emit tokens r).2).full = true ↔ 2 * c.cycle_bits ≤ c.bits.length) := by
  rw [emit_state_def, if_neg hnr]
  refine ⟨rfl, ?_, ?_⟩
  · simp
  · simp [DriftClock.full]
    omega

/-- C6 witness: 13 bits queued with `cycle_bits = 8` and `reset_prob = 0`:
the 5 leftover bits survive and `full()` is false. -/
theorem c6_witness :
    (((⟨[1, 0, 1, 1, 0, 0, 1, 0, 1, 1, 1, 1, 1], 8, 0, 0, 0, 0⟩ : DriftClock).emit
        [] ⟨0, 0⟩).2).bits =
      ([1, 0, 1, 1, 0, 0, 1, 0, 1, 1, 1, 1, 1] : List Nat).drop 8 ∧
    (((⟨[1, 0, 1, 1, 0, 0, 1, 0, 1, 1, 1, 1, 1], 8, 0, 0, 0, 0⟩ : DriftClock).emit
        [] ⟨0, 0⟩).2).bits.length =
      ([1, 0, 1, 1, 0, 0, 1, 0, 1, 1, 1, 1, 1] : List Nat).length - 8 ∧
    ((((⟨[1, 0, 1, 1, 0, 0, 1, 0, 1, 1, 1, 1, 1], 8, 0, 0, 0, 0⟩ : DriftClock).emit
        [] ⟨0, 0⟩).2).full = true ↔
      2 * 8 ≤ ([1, 0, 1, 1, 0, 0, 1, 0, 1, 1, 1, 1, 1] : List Nat).length) :=
  c6_emit_consumes_window _ _ _ (by decide) (fun hc => absurd hc.2 (by decide))

/-- C7: the emitted token is a pure function of the consumed window: two
clocks whose windows hold the same bit values produce the same token from
the same table, whatever their histories, drifts, counters or draws. -/
theorem c7_emit_token_deterministic (tokens : List String) (c1 c2 : DriftClock)
    (r1 r2 : EmitRand)
    (hwin : c1.bits.take c1.cycle_bits = c2.bits.take c2.cycle_bits) :
    (c1.emit tokens r1).1 = (c2.emit tokens r2).1 := by
  rw [emit_token_def, emit_token_def, hwin]

/-- C7 witness: two clocks differing in leftover bits, drift, parameters and
counters, but sharing the 2-bit window `[1,0]`. -/
theorem c7_witness :
    ((⟨[1, 0, 1], 2, 0, 0, 0, 0⟩ : DriftClock).emit token_table_unshuffled ⟨0, 0⟩).1 =
      ((⟨[1, 0], 2, 1, 1, 5, 9⟩ : DriftClock).emit token_table_unshuffled ⟨1, 1⟩).1 :=
  c7_emit_token_deterministic _ _ _ _ _ (by decide)

/-- C8: the unshuffled token table has exactly 64 entries of which exactly
one is the `RESET` sentinel, and the same holds for the table built from any
shuffle outcome (any permutation of it), so every index in `[0, 64)` is a
valid lookup. -/
theorem c8_token_table_wellformed :
    token_table_unshuffled.length = 64 ∧
      token_table_unshuffled.count RESET_TOKEN = 1 ∧
      ∀ l : List String, l.Perm token_table_unshuffled →
        (make_token_table l).length = 64 ∧
          (make_token_table l).count RESET_TOKEN = 1 := by
  refine ⟨by decide, by decide, ?_⟩
  intro l hp
  have hm : RESET_TOKEN ∈ l := hp.mem_iff.mpr (by decide)
  have hfix : make_token_table l = l := by
    unfold make_token_table fixReset
    rw [if_pos hm]
  rw [hfix]
  exact ⟨hp.length_eq.trans (by decide), (hp.count_eq RESET_TOKEN).trans (by decide)⟩

/-- C8 witness: the identity permutation of the unshuffled table. -/
theorem c8_witness :
    (make_token_table token_table_unshuffled).length = 64 ∧
      (make_token_table token_table_unshuffled).count RESET_TOKEN = 1 :=
  c8_token_table_wellformed.2.2 token_table_unshuffled (List.Perm.refl _)

/-- C9: in Auto mode a zero weight on one side with a positive weight on the
other forces the other domain on every action tick, whatever the random
draw. -/
theorem c9_zero_dominance_forces_domain (tokens : List String) (lb : List Nat)
    (active : Bool) (m k : Nat) (u : ℚ) :
    (m = 0 → 0 < k →
      (on_action_tick tokens lb active Mode.auto m k u).domain = Domain.keyboard) ∧
    (k = 0 → 0 < m →
      (on_action_tick tokens lb active Mode.auto m k u).domain = Domain.mouse) := by
  constructor
  · intro hm hk
    subst hm
    show choose_domain Mode.auto 0 k u = Domain.keyboard
    unfold choose_domain
    have h1 : ¬((0 : Nat) = 0 ∧ k = 0) := fun h => absurd h.2 (by omega)
    rw [if_neg h1, if_pos rfl]
  · intro hk hm
    subst hk
    show choose_domain Mode.auto m 0 u = Domain.mouse
    unfold choose_domain
    have h1 : ¬(m = 0 ∧ (0 : Nat) = 0) := fun h => absurd h.1 (by omega)
    rw [if_neg h1, if_neg (by omega : ¬m = 0), if_pos rfl]

/-- C9 witness: the spec scenario `mouse_dom = 0, key_dom = 100`. -/
theorem c9_witness :
    (on_action_tick [] [] true Mode.auto 0 100 (1 / 2)).domain = Domain.keyboard :=
  (c9_zero_dominance_forces_domain [] [] true 0 100 (1 / 2)).1 rfl (by norm_num)

/-- Helper for C10: every mutating operation preserves the 0/1 buffer
invariant. -/
theorem runOp_bits_binary (c : DriftClock) (op : ClockOp)
    (h : ∀ x ∈ c.bits, x = 0 ∨ x = 1) :
    ∀ x ∈ (runOp c op).bits, x = 0 ∨ x = 1 := by
  cases op with
  | addBit b =>
      intro x hx
      unfold runOp DriftClock.add_bit at hx
      dsimp only at hx
      rcases List.mem_append.mp hx with h1 | h2
      · exact h x h1
      · rcases List.mem_singleton.mp h2 with rfl
        split <;> simp
  | emitOp tokens r =>
      intro x hx
      unfold runOp at hx
      dsimp only at hx
      rw [emit_state_def] at hx
      split at hx
      · simp at hx
      · dsimp only at hx
        exact h x (List.drop_subset _ _ hx)
  | resetParamsOp cb dr rp =>
      intro x hx
      exact h x hx

/-- Helper for C10: the invariant is preserved by any operation sequence. -/
theorem runOps_bits_binary (ops : List ClockOp) (c : DriftClock)
    (h : ∀ x ∈ c.bits, x = 0 ∨ x = 1) :
    ∀ x ∈ (runOps c ops).bits, x = 0 ∨ x = 1 := by
  induction ops generalizing c with
  | nil => exact h
  | cons op rest ih => exact ih (runOp c op) (runOp_bits_binary c op h)

/-- C10: starting from a fresh clock, after any sequence of `add_bit`
(with arbitrary integer argument, stored as 1 if truthy, 0 if falsy),
`emit` and `reset_params` operations, the bit buffer holds only 0s and
1s. -/
theorem c10_bits_only_binary (cycle_bits : Int) (dr rp : ℚ) (ops : List ClockOp) :
    ∀ x ∈ (runOps (DriftClock.init cycle_bits dr rp) ops).bits, x = 0 ∨ x = 1 :=
  runOps_bits_binary ops _ (fun x hx => absurd hx (List.not_mem_nil x))

/-- C10 witness: feeding the truthy value 5 stores the bit 1. -/
theorem c10_witness :
    (1 : Nat) ∈ (runOps (DriftClock.init 8 0 0) [ClockOp.addBit 5]).bits ∧
      ((1 : Nat) = 0 ∨ (1 : Nat) = 1) :=
  ⟨by decide, c10_bits_only_binary 8 0 0 [ClockOp.addBit 5] 1 (by decide)⟩

end PresenceClock
